import Mathlib

/-!
Verification development for the FlowGate health-aware backend dispatch path.

The dispatcher is embedded from `src/FlowGate/proxy_server.py`
(`ProxyServer.handle_client`); the configuration constants from
`src/FlowGate/config.py`.  The health tracker (`health_manager`), the
round-robin backend selector (`backend_pool.get_next_backend`) and the
startup wiring are collaborators of `ProxyServer` whose modules are not
present under `src/`; those are modelled from the spec (each such
definition carries a doc comment saying so).

Bytes payloads are modelled as `String`, timestamps and durations as `Nat`.
-/

namespace FlowGate

/-- One upstream backend: immutable identity `(host, port)` plus the mutable
health state `consecutive_failures` / `unavailable_until` (spec §3). -/
structure Backend where
  host : String
  port : Nat
  consecutive_failures : Nat
  unavailable_until : Option Nat
deriving DecidableEq, Repr

/-- `BACKENDS` from `src/FlowGate/config.py`. -/
def BACKENDS : List (String × Nat) :=
  [("localhost", 8001), ("localhost", 8002), ("localhost", 8003)]

/-- `FAILURE_THRESHOLD` from `src/FlowGate/config.py`. -/
def FAILURE_THRESHOLD : Nat := 2

/-- `COOLDOWN_SECONDS` from `src/FlowGate/config.py`. -/
def COOLDOWN_SECONDS : Nat := 5

/-- The three timeout durations of the `TIMEOUTS` dict in
`src/FlowGate/config.py` (the key `backend_resposne` keeps the source's
spelling). -/
structure Timeouts where
  client_read : Nat
  backend_connect : Nat
  backend_resposne : Nat
deriving DecidableEq, Repr

/-- `TIMEOUTS` from `src/FlowGate/config.py`: all three durations are 2. -/
def TIMEOUTS : Timeouts := ⟨2, 2, 2⟩

/-- Modelled from the spec: the health tracker module handed to
`ProxyServer` as `health_manager` is not under `src/`.  Spec §4.2:
`is_available(backend, now)` returns true iff `unavailable_until` is none
or `now ≥ unavailable_until`. -/
def is_available (b : Backend) (now : Nat) : Bool :=
  match b.unavailable_until with
  | none => true
  | some u => decide (u ≤ now)

/-- Modelled from the spec (health tracker not under `src/`), spec §4.2:
`record_success` sets `consecutive_failures = 0` and clears
`unavailable_until`. -/
def record_success_b (b : Backend) : Backend :=
  { b with consecutive_failures := 0, unavailable_until := none }

/-- Modelled from the spec (health tracker not under `src/`), spec §4.2:
`record_failure` increments `consecutive_failures`; if the new count
reaches `FAILURE_THRESHOLD` (`T`) and the backend is not already cooling
down, it sets `unavailable_until = now + COOLDOWN_SECONDS` (`C`); a failure
recorded during an active cooldown only updates the counter, not the
timestamp. -/
def record_failure_b (T C now : Nat) (b : Backend) : Backend :=
  if T ≤ b.consecutive_failures + 1 then
    if is_available b now then
      { b with consecutive_failures := b.consecutive_failures + 1,
               unavailable_until := some (now + C) }
    else
      { b with consecutive_failures := b.consecutive_failures + 1 }
  else
    { b with consecutive_failures := b.consecutive_failures + 1 }

/-- In-place update of the `i`-th record of the registry (the registry is an
ordered list whose records are mutated in place, spec §4.1). -/
def updateAt : List α → Nat → (α → α) → List α
  | [], _, _ => []
  | x :: xs, 0, f => f x :: xs
  | x :: xs, n + 1, f => x :: updateAt xs n f

/-- Registry-level `record_success` on the backend at index `i`. -/
def record_success (reg : List Backend) (i : Nat) : List Backend :=
  updateAt reg i record_success_b

/-- Registry-level `record_failure` on the backend at index `i`. -/
def record_failure (T C now : Nat) (reg : List Backend) (i : Nat) : List Backend :=
  updateAt reg i (record_failure_b T C now)

/-- Modelled from the spec: the selector module handed to `ProxyServer` as
`backend_pool` is not under `src/`.  Spec §4.3: starting at
`start mod pool_size`, scan at most `fuel` candidates in increasing circular
order and return the first available one.  The second component counts how
many candidates were examined. -/
def findAvail (reg : List Backend) (now : Nat) (start : Nat) : Nat → Option Nat × Nat
  | 0 => (none, 0)
  | fuel + 1 =>
    match reg[start % reg.length]? with
    | none => (none, 1)
    | some b =>
      if is_available b now then
        (some (start % reg.length), 1)
      else
        ((findAvail reg now (start % reg.length + 1) fuel).1,
         (findAvail reg now (start % reg.length + 1) fuel).2 + 1)

/-- Modelled from the spec (selector not under `src/`), spec §4.3:
`get_next_backend` scans at most `pool_size` candidates from the cursor,
returns the first available index and sets the cursor one past it; if no
candidate is available it returns none and leaves the cursor unchanged. -/
def get_next_backend (reg : List Backend) (cursor now : Nat) : Option Nat × Nat :=
  match (findAvail reg now cursor reg.length).1 with
  | some i => (some i, (i + 1) % reg.length)
  | none => (none, cursor)

/-- `n` sequential selection calls: the list of results and the final
cursor. -/
def selectSeq (reg : List Backend) (now : Nat) (cursor : Nat) : Nat → List (Option Nat) × Nat
  | 0 => ([], cursor)
  | n + 1 =>
    ((get_next_backend reg cursor now).1 ::
       (selectSeq reg now (get_next_backend reg cursor now).2 n).1,
     (selectSeq reg now (get_next_backend reg cursor now).2 n).2)

/-- A call to `record_success` / `record_failure` observed by the health
tracker, identified by the chosen backend's registry index. -/
inductive HealthEvent where
  | succ (i : Nat)
  | fail (i : Nat)
deriving DecidableEq, Repr

/-- The outcomes of the timeout-bounded I/O steps of one
`ProxyServer.handle_client` run (`src/FlowGate/proxy_server.py`).
`clientRead = none` means the client read raised `asyncio.TimeoutError`;
`some raw` means it returned the bytes `raw` (possibly empty, as when the
client closed the connection before the timeout).  `connectOk`,
`forwardOk` say whether `asyncio.open_connection` and the forwarding
write/drain to the backend succeed; `backendRead = none` means the
backend-response read timed out or errored.  `respDrainOk`, `drain503Ok`
and `drain504Ok` say whether the client-side `writer.drain()` after,
respectively, the relayed response, the synthetic 503 and the synthetic
504 succeeds (a drain on a reset client connection raises). -/
structure Env where
  clientRead : Option String
  now : Nat
  connectOk : Bool
  forwardOk : Bool
  backendRead : Option String
  respDrainOk : Bool
  drain503Ok : Bool
  drain504Ok : Bool
deriving DecidableEq, Repr

/-- The proxy's shared mutable state: the backend registry and the
selector's round-robin cursor. -/
structure ProxyState where
  reg : List Backend
  cursor : Nat
deriving DecidableEq, Repr

/-- The synthetic 503 status line written by `handle_client` when the
selector returns no backend. -/
def resp503 : String := "HTTP/1.1 503 Service Unavailable\r\n\r\n"

/-- The synthetic 504 status line written by `handle_client` in its
`except` block. -/
def resp504 : String := "HTTP/1.1 504 Gateway Timeout\r\n\r\n"

/-- Observable outcome of one `handle_client` run: the chunks passed to
the client `writer.write` in order, the chunks written to the backend, the
number of `asyncio.open_connection` attempts, the health-tracker calls in
order, how many times the client `writer.close()` ran, and whether an
exception escaped the handler. -/
structure HandleResult where
  clientWrites : List String
  backendWrites : List String
  connAttempts : Nat
  healthEvents : List HealthEvent
  closes : Nat
  raised : Bool
deriving DecidableEq, Repr

/-- The `except Exception` arm of `handle_client`: `record_failure` on the
chosen backend, then write the synthetic 504 and drain (a failing drain
propagates after the `finally` close). -/
def failResult (T C : Nat) (env : Env) (st : ProxyState) (c2 i : Nat)
    (bw : List String) : HandleResult × ProxyState :=
  (⟨[resp504], bw, 1, [HealthEvent.fail i], 1, !env.drain504Ok⟩,
   ⟨record_failure T C env.now st.reg i, c2⟩)

/-- The forwarding phase of `handle_client` (the `try` block guarded by
`finally: writer.close()`), for chosen backend index `i` and post-selection
cursor `c2`: connect under the backend-connect timeout, forward `raw`
verbatim, read the response under the backend-response timeout, relay it
to the client and `record_success`; any failure in the block — including a
failing client-side drain of the relayed response — lands in the `except`
arm (`failResult`). -/
def forwardPhase (T C : Nat) (env : Env) (st : ProxyState) (raw : String)
    (i c2 : Nat) : HandleResult × ProxyState :=
  if env.connectOk then
    if env.forwardOk then
      match env.backendRead with
      | none => failResult T C env st c2 i [raw]
      | some resp =>
        if env.respDrainOk then
          (⟨[resp], [raw], 1, [HealthEvent.succ i], 1, false⟩,
           ⟨record_success st.reg i, c2⟩)
        else
          (⟨[resp, resp504], [raw], 1, [HealthEvent.fail i], 1, !env.drain504Ok⟩,
           ⟨record_failure T C env.now st.reg i, c2⟩)
    else failResult T C env st c2 i [raw]
  else failResult T C env st c2 i []

/-- `handle_client` after a successful client read of `raw`: ask the
selector for a backend; on none, write the synthetic 503, drain (a failing
drain raises before the `writer.close()` of this branch) and stop;
otherwise enter the forwarding phase. -/
def afterRead (T C : Nat) (env : Env) (st : ProxyState) (raw : String) :
    HandleResult × ProxyState :=
  match (get_next_backend st.reg st.cursor env.now).1 with
  | none =>
    (⟨[resp503], [], 0, [], if env.drain503Ok then 1 else 0, !env.drain503Ok⟩,
     ⟨st.reg, (get_next_backend st.reg st.cursor env.now).2⟩)
  | some i => forwardPhase T C env st raw i (get_next_backend st.reg st.cursor env.now).2

/-- Embedding of `ProxyServer.handle_client` (`src/FlowGate/proxy_server.py`)
over the I/O outcomes in `env`: a client-read timeout closes the
connection with no response and no health update; otherwise the run
proceeds through selection and forwarding. -/
def handle_client (T C : Nat) (env : Env) (st : ProxyState) :
    HandleResult × ProxyState :=
  match env.clientRead with
  | none => (⟨[], [], 0, [], 1, false⟩, st)
  | some raw => afterRead T C env st raw

/-- The registry built at startup from `BACKENDS`: every backend starts
with no failures and no cooldown. -/
def initRegistry : List Backend :=
  BACKENDS.map (fun hp => ⟨hp.1, hp.2, 0, none⟩)

/-- Modelled from the spec: FlowGate's startup wiring (the main module
that loads `config.py` and builds the pool) is not under `src/`.  Spec
§6/§7: the backend pool must be non-empty and `FAILURE_THRESHOLD`,
`COOLDOWN_SECONDS` and the three timeouts must all be positive; zero or
negative values are a configuration error. -/
def validate_config (backends : List (String × Nat))
    (threshold cooldown t_client t_connect t_response : Int) : Bool :=
  !backends.isEmpty && decide (0 < threshold) && decide (0 < cooldown) &&
    decide (0 < t_client) && decide (0 < t_connect) && decide (0 < t_response)

/-- Modelled from the spec (startup wiring not under `src/`): startup
validates the configuration before any selection or request handling; on
an invalid configuration it fails fatally (`none`), otherwise it builds
the initial proxy state with a fresh registry and cursor 0. -/
def startup (backends : List (String × Nat))
    (threshold cooldown t_client t_connect t_response : Int) : Option ProxyState :=
  if validate_config backends threshold cooldown t_client t_connect t_response then
    some ⟨backends.map (fun hp => ⟨hp.1, hp.2, 0, none⟩), 0⟩
  else
    none

/-- A sequence of `record_failure` calls on one backend, at the given
timestamps, with no intervening success. -/
def applyFailures (T C : Nat) : Backend → List Nat → Backend
  | b, [] => b
  | b, t :: ts => applyFailures T C (record_failure_b T C t b) ts

/-- One health-tracker call on the registry: a success or a failure (at
time `t`) for the backend at index `i`. -/
inductive HealthOp where
  | succ (i : Nat)
  | fail (i : Nat) (t : Nat)
deriving DecidableEq, Repr

/-- Apply one health-tracker call to the registry. -/
def applyOp (T C : Nat) (reg : List Backend) : HealthOp → List Backend
  | HealthOp.succ i => record_success reg i
  | HealthOp.fail i t => record_failure T C t reg i

/-- Apply a sequence of health-tracker calls to the registry. -/
def applyOps (T C : Nat) : List Backend → List HealthOp → List Backend
  | reg, [] => reg
  | reg, op :: ops => applyOps T C (applyOp T C reg op) ops

/-- Spec §3 invariant, state part: a backend's `unavailable_until` is set
only when its `consecutive_failures` has reached the threshold `T`. -/
def RegInvariant (T : Nat) (reg : List Backend) : Prop :=
  ∀ b ∈ reg, b.unavailable_until.isSome = true → T ≤ b.consecutive_failures

/-- Sample proxy state: the startup registry with the cursor at 0. -/
def st0 : ProxyState := ⟨initRegistry, 0⟩

/-- Sample proxy state in which every backend of the pool is cooling down
until time 100 (so none is available at time 0). -/
def stAllCooling : ProxyState :=
  ⟨BACKENDS.map (fun hp => ⟨hp.1, hp.2, 2, some 100⟩), 0⟩

/-- Sample run: the connection attempt to the chosen backend fails. -/
def envConnectFail : Env :=
  ⟨some "GET / HTTP/1.1\r\n\r\n", 0, false, true, none, true, true, true⟩

/-- Sample run: the backend responds (with an HTTP error status) within
budget and the relay to the client succeeds. -/
def envHappy : Env :=
  ⟨some "GET / HTTP/1.1\r\n\r\n", 0, true, true,
   some "HTTP/1.1 500 Internal Server Error\r\n\r\n", true, true, true⟩

/-- Sample run: the backend responds within budget, but the client-side
drain of the relayed response fails (the client went away). -/
def envClientGone : Env :=
  ⟨some "GET / HTTP/1.1\r\n\r\n", 0, true, true,
   some "HTTP/1.1 200 OK\r\n\r\nok", false, true, true⟩

/-- Sample run: no backend is available and the client-side drain of the
synthetic 503 fails. -/
def envNoBackendDrainFail : Env :=
  ⟨some "GET / HTTP/1.1\r\n\r\n", 0, true, true, none, true, false, true⟩

/-- Sample run: the client closed its connection before sending anything,
so the client read returned an empty payload (not a timeout). -/
def envEmptyRead : Env :=
  ⟨some "", 0, true, true, some "HTTP/1.1 200 OK\r\n\r\nok", true, true, true⟩

end FlowGate

namespace FlowGate

theorem record_failure_b_not_avail (T C t2 : Nat) (b : Backend)
    (h : is_available b t2 = false) :
    record_failure_b T C t2 b =
      { b with consecutive_failures := b.consecutive_failures + 1 } := by
  by_cases hT : T ≤ b.consecutive_failures + 1 <;>
    simp [record_failure_b, hT, h]

theorem applyFailures_below (T C : Nat) : ∀ (ts : List Nat) (b : Backend),
    b.unavailable_until = none →
    b.consecutive_failures + ts.length < T →
    (applyFailures T C b ts).consecutive_failures
        = b.consecutive_failures + ts.length ∧
    (applyFailures T C b ts).unavailable_until = none := by
  intro ts
  induction ts with
  | nil => intro b hu _; simp [applyFailures, hu]
  | cons t ts ih =>
    intro b hu hlt
    have hnotT : ¬ T ≤ b.consecutive_failures + 1 := by
      simp [List.length_cons] at hlt; omega
    have hrf : record_failure_b T C t b =
        { b with consecutive_failures := b.consecutive_failures + 1 } := by
      simp [record_failure_b, hnotT]
    have hlt2 : ({ b with consecutive_failures := b.consecutive_failures + 1 }
        : Backend).consecutive_failures + ts.length < T := by
      simp [List.length_cons] at hlt; simp; omega
    have h2 := ih { b with consecutive_failures := b.consecutive_failures + 1 }
      (by simpa using hu) hlt2
    constructor
    · show (applyFailures T C (record_failure_b T C t b) ts).consecutive_failures = _
      rw [hrf, h2.1]; simp [List.length_cons]; omega
    · show (applyFailures T C (record_failure_b T C t b) ts).unavailable_until = none
      rw [hrf, h2.2]

/-- C3: after exactly `FAILURE_THRESHOLD` (`T`) consecutive
`record_failure` calls with no intervening success on a fresh backend, the
threshold-crossing failure at time `t` sets `unavailable_until = t + C`;
`is_available` is false for every instant before `t + C` and true at
`t + C`; and a further failure recorded while the backend is cooling down
increments the counter but leaves `unavailable_until` unchanged. -/
theorem circuit_breaker_threshold_cooldown_c3 (T C : Nat) (hT : 0 < T)
    (hC : 0 < C) (b0 : Backend) (h0 : b0.consecutive_failures = 0)
    (h1 : b0.unavailable_until = none) (ts : List Nat)
    (hlen : ts.length = T - 1) (t : Nat) (b2 : Backend)
    (hb2 : b2 = record_failure_b T C t (applyFailures T C b0 ts)) :
    b2.consecutive_failures = T ∧
    b2.unavailable_until = some (t + C) ∧
    (∀ now, now < t + C → is_available b2 now = false) ∧
    is_available b2 (t + C) = true ∧
    (∀ t2, t2 < t + C →
      (record_failure_b T C t2 b2).unavailable_until = some (t + C) ∧
      (record_failure_b T C t2 b2).consecutive_failures
          = b2.consecutive_failures + 1) := by
  have hlt : b0.consecutive_failures + ts.length < T := by omega
  have h1b := applyFailures_below T C ts b0 h1 hlt
  have hcf1 : (applyFailures T C b0 ts).consecutive_failures = T - 1 := by
    rw [h1b.1]; omega
  have havail : is_available (applyFailures T C b0 ts) t = true := by
    simp [is_available, h1b.2]
  have hTle : T ≤ (applyFailures T C b0 ts).consecutive_failures + 1 := by
    rw [hcf1]; omega
  have hb2eq : b2 = { applyFailures T C b0 ts with
      consecutive_failures := (applyFailures T C b0 ts).consecutive_failures + 1,
      unavailable_until := some (t + C) } := by
    rw [hb2]; simp [record_failure_b, hTle, havail]
  have hcf2 : b2.consecutive_failures = T := by rw [hb2eq]; simp [hcf1]; omega
  have huu2 : b2.unavailable_until = some (t + C) := by rw [hb2eq]
  refine ⟨hcf2, huu2, ?_, ?_, ?_⟩
  · intro now hnow
    simp [is_available, huu2]; omega
  · simp [is_available, huu2]
  · intro t2 ht2
    have hna : is_available b2 t2 = false := by
      simp [is_available, huu2]; omega
    rw [record_failure_b_not_avail T C t2 b2 hna]
    exact ⟨huu2, rfl⟩

theorem circuit_breaker_threshold_cooldown_c3_w :
    (record_failure_b 2 5 7
        (applyFailures 2 5 ⟨"localhost", 8001, 0, none⟩ [3])).unavailable_until
      = some 12 :=
  (circuit_breaker_threshold_cooldown_c3 2 5 (by decide) (by decide)
    ⟨"localhost", 8001, 0, none⟩ rfl rfl [3] rfl 7 _ rfl).2.1

/-- C6: a single `record_success` call resets `consecutive_failures` to 0,
clears `unavailable_until` (so the backend is available at every instant,
i.e. HEALTHY), preserves the backend's identity, and repeated calls are
idempotent: on an already-healthy backend `record_success` changes
nothing. -/
theorem record_success_resets_and_idempotent_c6 (b : Backend) :
    (record_success_b b).consecutive_failures = 0 ∧
    (record_success_b b).unavailable_until = none ∧
    (record_success_b b).host = b.host ∧
    (record_success_b b).port = b.port ∧
    (∀ now, is_available (record_success_b b) now = true) ∧
    record_success_b (record_success_b b) = record_success_b b ∧
    (b.consecutive_failures = 0 → b.unavailable_until = none →
      record_success_b b = b) := by
  refine ⟨rfl, rfl, rfl, rfl, fun now => rfl, rfl, ?_⟩
  intro h0 h1
  cases b with
  | mk host port cf uu => simp_all [record_success_b]

theorem record_success_resets_and_idempotent_c6_w :
    record_success_b ⟨"localhost", 8001, 0, none⟩
      = (⟨"localhost", 8001, 0, none⟩ : Backend) :=
  (record_success_resets_and_idempotent_c6
    ⟨"localhost", 8001, 0, none⟩).2.2.2.2.2.2 rfl rfl

/-- C9: startup validation accepts a configuration exactly when the pool
is non-empty and the threshold, cooldown and all three timeouts are
positive; an empty pool or a zero/negative parameter is rejected fatally
(`startup` produces no proxy state, so no selection or request handling
can occur), while the repository's actual `config.py` values pass. -/
theorem config_validated_at_startup_c9 :
    (∀ bs t c a b2 r, validate_config bs t c a b2 r = true ↔
      (bs ≠ [] ∧ 0 < t ∧ 0 < c ∧ 0 < a ∧ 0 < b2 ∧ 0 < r)) ∧
    startup [] 2 5 2 2 2 = none ∧
    startup BACKENDS 0 5 2 2 2 = none ∧
    startup BACKENDS (-3) 5 2 2 2 = none ∧
    startup BACKENDS 2 0 2 2 2 = none ∧
    startup BACKENDS 2 5 0 2 2 = none ∧
    startup BACKENDS 2 5 2 0 2 = none ∧
    startup BACKENDS 2 5 2 2 0 = none ∧
    startup BACKENDS 2 5 2 2 2 = some ⟨initRegistry, 0⟩ := by
  constructor
  · intro bs t c a b2 r
    cases bs <;> simp [validate_config, and_assoc]
  · refine ⟨by decide, by decide, by decide, by decide, by decide, by decide,
      by decide, ?_⟩
    decide

theorem findAvail_count_le (reg : List Backend) (now : Nat) :
    ∀ (k s : Nat), (findAvail reg now s k).2 ≤ k := by
  intro k
  induction k with
  | zero => intro s; simp [findAvail]
  | succ k ih =>
    intro s
    unfold findAvail
    cases hg : reg[s % reg.length]? with
    | none => simp
    | some b =>
      by_cases ha : is_available b now <;> simp [ha]
      exact ih (s % reg.length + 1)

theorem findAvail_pos_of_avail (reg : List Backend) (now : Nat)
    (hall : ∀ b ∈ reg, is_available b now = true) (hne : reg ≠ []) :
    ∀ (k s : Nat), 0 < k →
      findAvail reg now s k = (some (s % reg.length), 1) := by
  intro k s hk
  obtain ⟨m, rfl⟩ := Nat.exists_eq_succ_of_ne_zero (Nat.pos_iff_ne_zero.mp hk)
  have hlt : s % reg.length < reg.length :=
    Nat.mod_lt _ (List.length_pos.mpr hne)
  obtain ⟨b, hgb⟩ : ∃ b, reg[s % reg.length]? = some b := by
    rw [List.getElem?_eq_getElem hlt]
    exact ⟨_, rfl⟩
  have hmem : b ∈ reg := List.getElem?_mem hgb
  unfold findAvail
  rw [hgb]
  simp [hall b hmem]

theorem get_next_backend_all_avail (reg : List Backend) (now c : Nat)
    (hall : ∀ b ∈ reg, is_available b now = true) (hne : reg ≠ []) :
    get_next_backend reg c now =
      (some (c % reg.length), (c % reg.length + 1) % reg.length) := by
  unfold get_next_backend
  rw [findAvail_pos_of_avail reg now hall hne reg.length c
    (List.length_pos.mpr hne)]

theorem selectSeq_all_avail (reg : List Backend) (now : Nat)
    (hall : ∀ b ∈ reg, is_available b now = true) (hne : reg ≠ []) :
    ∀ (n c : Nat), (selectSeq reg now c n).1
      = (List.range n).map (fun j => some ((c + j) % reg.length)) := by
  intro n
  induction n with
  | zero => intro c; simp [selectSeq]
  | succ n ih =>
    intro c
    have hmodeq : ∀ j : Nat,
        ((c % reg.length + 1) % reg.length + j) % reg.length
          = (c + (j + 1)) % reg.length := by
      intro j
      have h1 : c % reg.length + 1 + j ≡ c + (j + 1) [MOD reg.length] := by
        have hc : c % reg.length ≡ c [MOD reg.length] := Nat.mod_modEq c _
        have := hc.add_right (1 + j)
        calc c % reg.length + 1 + j = c % reg.length + (1 + j) := by omega
          _ ≡ c + (1 + j) [MOD reg.length] := this
          _ = c + (j + 1) := by omega
      calc ((c % reg.length + 1) % reg.length + j) % reg.length
          = (c % reg.length + 1 + j) % reg.length := Nat.mod_add_mod _ _ _
        _ = (c + (j + 1)) % reg.length := h1
    unfold selectSeq
    rw [get_next_backend_all_avail reg now c hall hne]
    simp only [ih]
    rw [List.range_succ_eq_map]
    simp only [List.map_cons, List.map_map]
    refine List.cons_eq_cons.mpr ⟨by simp, ?_⟩
    apply List.map_congr_left
    intro j _
    simp only [Function.comp_apply]
    rw [hmodeq j]

theorem findAvail_some_spec (reg : List Backend) (now : Nat) :
    ∀ (k s i : Nat), (findAvail reg now s k).1 = some i →
      i < reg.length ∧ ∃ b, reg[i]? = some b ∧ is_available b now = true := by
  intro k
  induction k with
  | zero => intro s i h; simp [findAvail] at h
  | succ k ih =>
    intro s i h
    unfold findAvail at h
    cases hg : reg[s % reg.length]? with
    | none => rw [hg] at h; simp at h
    | some b =>
      rw [hg] at h
      by_cases ha : is_available b now
      · simp [ha] at h
        subst h
        have hlt : s % reg.length < reg.length := by
          by_contra hcon
          rw [List.getElem?_eq_none (by omega)] at hg
          exact Option.noConfusion hg
        exact ⟨hlt, b, hg, ha⟩
      · simp [ha] at h
        exact ih _ _ h

theorem get_next_backend_some_spec (reg : List Backend) (now c i : Nat)
    (h : (get_next_backend reg c now).1 = some i) :
    i < reg.length ∧ ∃ b, reg[i]? = some b ∧ is_available b now = true := by
  unfold get_next_backend at h
  cases hf : (findAvail reg now c reg.length).1 with
  | none => rw [hf] at h; simp at h
  | some j =>
    rw [hf] at h
    simp at h
    subst h
    exact findAvail_some_spec reg now reg.length c _ hf

/-- C4: with every backend of a non-empty registry available, `N = pool
size` sequential selection calls return the indices in increasing circular
order starting at the cursor position (hence each index exactly once); any
selection that returns index `i` sets the cursor to `(i + 1) mod pool_size`
and `i` is in range; a selection that finds no available backend returns
none and leaves the cursor at its last updated value; and a scan examines
at most `pool_size` candidates. -/
theorem round_robin_selection_c4 (reg : List Backend) (now c : Nat)
    (hne : reg ≠ []) :
    ((∀ b ∈ reg, is_available b now = true) →
      (selectSeq reg now c reg.length).1
          = (List.range reg.length).map (fun j => some ((c + j) % reg.length)) ∧
      (selectSeq reg now c reg.length).1.Nodup) ∧
    (∀ i c2, get_next_backend reg c now = (some i, c2) →
      c2 = (i + 1) % reg.length ∧ i < reg.length) ∧
    ((get_next_backend reg c now).1 = none →
      (get_next_backend reg c now).2 = c) ∧
    (findAvail reg now c reg.length).2 ≤ reg.length := by
  refine ⟨?_, ?_, ?_, findAvail_count_le reg now reg.length c⟩
  · intro hall
    have hseq := selectSeq_all_avail reg now hall hne reg.length c
    refine ⟨hseq, ?_⟩
    rw [hseq]
    have hlen : 0 < reg.length := List.length_pos.mpr hne
    refine List.Nodup.map_on ?_ (List.nodup_range _)
    intro j1 hj1 j2 hj2 heq
    simp [List.mem_range] at hj1 hj2
    simp at heq
    have hmodeq : j1 ≡ j2 [MOD reg.length] := by
      have : c + j1 ≡ c + j2 [MOD reg.length] := by
        unfold Nat.ModEq
        exact heq
      exact this.add_left_cancel' c
    have : j1 % reg.length = j2 % reg.length := hmodeq
    rwa [Nat.mod_eq_of_lt hj1, Nat.mod_eq_of_lt hj2] at this
  · intro i c2 h
    unfold get_next_backend at h
    cases hf : (findAvail reg now c reg.length).1 with
    | none => rw [hf] at h; simp at h
    | some j =>
      rw [hf] at h
      simp at h
      obtain ⟨rfl, rfl⟩ := h
      have := findAvail_some_spec reg now reg.length c j hf
      exact ⟨rfl, this.1⟩
  · intro h
    unfold get_next_backend at h ⊢
    cases hf : (findAvail reg now c reg.length).1 with
    | none => simp
    | some j => rw [hf] at h; simp at h

theorem round_robin_selection_c4_w :
    (selectSeq initRegistry 0 1 initRegistry.length).1
      = (List.range initRegistry.length).map
          (fun j => some ((1 + j) % initRegistry.length)) :=
  ((round_robin_selection_c4 initRegistry 0 1 (by decide)).1 (by decide)).1

theorem mem_updateAt {α} (f : α → α) : ∀ (l : List α) (i : Nat) (x : α),
    x ∈ updateAt l i f → x ∈ l ∨ ∃ y ∈ l, x = f y := by
  intro l
  induction l with
  | nil => intro i x hx; simp [updateAt] at hx
  | cons a as ih =>
    intro i x hx
    cases i with
    | zero =>
      simp only [updateAt, List.mem_cons] at hx
      rcases hx with h | h
      · exact Or.inr ⟨a, by simp, h⟩
      · exact Or.inl (List.mem_cons_of_mem a h)
    | succ n =>
      simp only [updateAt, List.mem_cons] at hx
      rcases hx with h | h
      · exact Or.inl (h ▸ List.mem_cons_self a as)
      · rcases ih n x h with h2 | ⟨y, hy, hxy⟩
        · exact Or.inl (List.mem_cons_of_mem a h2)
        · exact Or.inr ⟨y, List.mem_cons_of_mem a hy, hxy⟩

theorem record_failure_b_keeps_inv (T C t : Nat) (b : Backend)
    (h : b.unavailable_until.isSome = true → T ≤ b.consecutive_failures)
    (hsome : (record_failure_b T C t b).unavailable_until.isSome = true) :
    T ≤ (record_failure_b T C t b).consecutive_failures := by
  by_cases hT : T ≤ b.consecutive_failures + 1
  · by_cases ha : is_available b t <;> simp [record_failure_b, hT, ha] at hsome ⊢
  · simp [record_failure_b, hT] at hsome ⊢
    have := h hsome
    omega

theorem regInvariant_applyOp (T C : Nat) (reg : List Backend) (op : HealthOp)
    (h : RegInvariant T reg) : RegInvariant T (applyOp T C reg op) := by
  cases op with
  | succ i =>
    intro b hb hsome
    rcases mem_updateAt record_success_b reg i b hb with hmem | ⟨y, hy, rfl⟩
    · exact h b hmem hsome
    · simp [record_success_b] at hsome
  | fail i t =>
    intro b hb hsome
    rcases mem_updateAt (record_failure_b T C t) reg i b hb with hmem | ⟨y, hy, rfl⟩
    · exact h b hmem hsome
    · exact record_failure_b_keeps_inv T C t y (h y hy) hsome

theorem regInvariant_applyOps (T C : Nat) :
    ∀ (ops : List HealthOp) (reg : List Backend),
      RegInvariant T reg → RegInvariant T (applyOps T C reg ops) := by
  intro ops
  induction ops with
  | nil => intro reg h; simpa [applyOps] using h
  | cons op ops ih =>
    intro reg h
    have h2 := regInvariant_applyOp T C reg op h
    simpa [applyOps] using ih (applyOp T C reg op) h2

theorem regInvariant_init (T : Nat) : RegInvariant T initRegistry := by
  intro b hb hsome
  simp [initRegistry, BACKENDS] at hb
  rcases hb with rfl | rfl | rfl <;> simp at hsome

/-- C7: in every registry state reachable by health-tracker calls from the
initial state, a backend's `unavailable_until` is set only if its
`consecutive_failures` has reached the threshold; moreover any
`record_failure` call that changes `unavailable_until` leaves the counter
at or above the threshold (so the timestamp is set exactly at a
threshold-reaching failure on an eligible backend, and is set in that
case), and `record_success` always clears `unavailable_until` and resets
`consecutive_failures` to 0. -/
theorem registry_invariant_c7 (T C : Nat) (ops : List HealthOp) :
    RegInvariant T (applyOps T C initRegistry ops) ∧
    (∀ t b, (record_failure_b T C t b).unavailable_until ≠ b.unavailable_until →
      T ≤ (record_failure_b T C t b).consecutive_failures) ∧
    (∀ t b, is_available b t = true → T ≤ b.consecutive_failures + 1 →
      (record_failure_b T C t b).unavailable_until = some (t + C)) ∧
    (∀ b, (record_success_b b).consecutive_failures = 0 ∧
      (record_success_b b).unavailable_until = none) := by
  refine ⟨regInvariant_applyOps T C ops initRegistry (regInvariant_init T),
    ?_, ?_, fun b => ⟨rfl, rfl⟩⟩
  · intro t b hch
    by_cases hT : T ≤ b.consecutive_failures + 1
    · by_cases ha : is_available b t <;>
        simp [record_failure_b, hT, ha] at hch ⊢
    · simp [record_failure_b, hT] at hch
  · intro t b ha hT
    simp [record_failure_b, hT, ha]

theorem registry_invariant_c7_w :
    RegInvariant 2 (applyOps 2 5 initRegistry
      [HealthOp.fail 0 3, HealthOp.fail 0 4, HealthOp.succ 1]) :=
  (registry_invariant_c7 2 5
    [HealthOp.fail 0 3, HealthOp.fail 0 4, HealthOp.succ 1]).1

theorem updateAt_getElem_self {α} (f : α → α) : ∀ (l : List α) (i : Nat),
    (updateAt l i f)[i]? = (l[i]?).map f := by
  intro l
  induction l with
  | nil => intro i; simp [updateAt]
  | cons a as ih =>
    intro i
    cases i with
    | zero => simp [updateAt]
    | succ n => simp [updateAt, ih n]

theorem record_failure_b_cf (T C t : Nat) (b : Backend) :
    (record_failure_b T C t b).consecutive_failures
      = b.consecutive_failures + 1 := by
  by_cases hT : T ≤ b.consecutive_failures + 1
  · by_cases ha : is_available b t <;> simp [record_failure_b, hT, ha]
  · simp [record_failure_b, hT]

theorem forwardPhase_closes (T C : Nat) (env : Env) (st : ProxyState)
    (raw : String) (i c2 : Nat) :
    (forwardPhase T C env st raw i c2).1.closes = 1 := by
  by_cases hc : env.connectOk
  · by_cases hf : env.forwardOk
    · cases hb : env.backendRead with
      | none => simp [forwardPhase, hc, hf, hb, failResult]
      | some resp =>
        by_cases hd : env.respDrainOk <;>
          simp [forwardPhase, hc, hf, hb, hd, failResult]
    · simp [forwardPhase, hc, hf, failResult]
  · simp [forwardPhase, hc, failResult]

/-- C1, as stated, is false on the code: in this run the backend's
response is read to completion within the backend-response timeout
(`backendRead` yields a 200 response), yet because the client-side drain
of the relayed response fails, `handle_client` lands in its `except` block
and reports a failure — not a success — for the chosen backend, and the
client-visible byte stream is the response with a synthetic 504 appended
rather than the response verbatim. -/
theorem completed_read_reports_success_c1_cex :
    envClientGone.backendRead = some "HTTP/1.1 200 OK\r\n\r\nok" ∧
    (handle_client 2 5 envClientGone st0).1.healthEvents
        = [HealthEvent.fail 0] ∧
    HealthEvent.succ 0 ∉ (handle_client 2 5 envClientGone st0).1.healthEvents ∧
    (handle_client 2 5 envClientGone st0).1.clientWrites
        = ["HTTP/1.1 200 OK\r\n\r\nok", resp504] := by
  refine ⟨rfl, ?_, ?_, ?_⟩ <;> decide

/-- C1 (amended): for every request in which the backend's response is
read to completion within the backend-response timeout AND the subsequent
client-side write of that response succeeds, the dispatcher reports
success to the health tracker for the chosen backend regardless of the
HTTP status code in the response, and relays the response bytes to the
client unchanged. -/
theorem completed_read_reports_success_c1 (T C : Nat) (env : Env)
    (st : ProxyState) (raw resp : String) (i : Nat)
    (hr : env.clientRead = some raw)
    (hsel : (get_next_backend st.reg st.cursor env.now).1 = some i)
    (hc : env.connectOk = true) (hf : env.forwardOk = true)
    (hb : env.backendRead = some resp) (hd : env.respDrainOk = true) :
    (handle_client T C env st).1.healthEvents = [HealthEvent.succ i] ∧
    (handle_client T C env st).1.clientWrites = [resp] ∧
    (handle_client T C env st).2.reg = record_success st.reg i := by
  simp [handle_client, hr, afterRead, hsel, forwardPhase, hc, hf, hb, hd]

theorem completed_read_reports_success_c1_w :
    (handle_client 2 5 envHappy st0).1.healthEvents = [HealthEvent.succ 0] ∧
    (handle_client 2 5 envHappy st0).1.clientWrites
        = ["HTTP/1.1 500 Internal Server Error\r\n\r\n"] ∧
    (handle_client 2 5 envHappy st0).2.reg = record_success st0.reg 0 :=
  completed_read_reports_success_c1 2 5 envHappy st0
    "GET / HTTP/1.1\r\n\r\n" "HTTP/1.1 500 Internal Server Error\r\n\r\n" 0
    rfl (by decide) rfl rfl rfl rfl

/-- C2: whenever a backend was selected and the connection attempt, the
forwarding write, or the response read fails or times out, the dispatcher
writes exactly the synthetic 504 to the client and records exactly one
failure for the chosen backend: its consecutive-failure count increments
by exactly 1. -/
theorem backend_failure_504_c2 (T C : Nat) (env : Env) (st : ProxyState)
    (raw : String) (i : Nat)
    (hr : env.clientRead = some raw)
    (hsel : (get_next_backend st.reg st.cursor env.now).1 = some i)
    (hfail : env.connectOk = false ∨ env.forwardOk = false ∨
      env.backendRead = none) :
    (handle_client T C env st).1.clientWrites = [resp504] ∧
    (handle_client T C env st).1.healthEvents = [HealthEvent.fail i] ∧
    ((handle_client T C env st).2.reg[i]?).map Backend.consecutive_failures
      = (st.reg[i]?).map (fun b => b.consecutive_failures + 1) := by
  have hred : handle_client T C env st
      = forwardPhase T C env st raw i (get_next_backend st.reg st.cursor env.now).2 := by
    simp [handle_client, hr, afterRead, hsel]
  have hcf : ((record_failure T C env.now st.reg i)[i]?).map
        Backend.consecutive_failures
      = (st.reg[i]?).map (fun b => b.consecutive_failures + 1) := by
    rw [record_failure, updateAt_getElem_self]
    cases hsg : st.reg[i]? with
    | none => simp
    | some b => simp [record_failure_b_cf]
  rcases hfail with h | h | h
  · rw [hred]
    simp [forwardPhase, h, failResult, hcf]
  · rw [hred]
    by_cases hc : env.connectOk <;>
      simp [forwardPhase, hc, h, failResult, hcf]
  · rw [hred]
    by_cases hc : env.connectOk
    · by_cases hf : env.forwardOk <;>
        simp [forwardPhase, hc, hf, h, failResult, hcf]
    · simp [forwardPhase, hc, failResult, hcf]

theorem backend_failure_504_c2_w :
    (handle_client 2 5 envConnectFail st0).1.clientWrites = [resp504] ∧
    (handle_client 2 5 envConnectFail st0).1.healthEvents
        = [HealthEvent.fail 0] ∧
    ((handle_client 2 5 envConnectFail st0).2.reg[0]?).map
        Backend.consecutive_failures
      = (st0.reg[0]?).map (fun b => b.consecutive_failures + 1) :=
  backend_failure_504_c2 2 5 envConnectFail st0 "GET / HTTP/1.1\r\n\r\n" 0
    rfl (by decide) (Or.inl rfl)

/-- C5: whenever the selector reports no backend available, the
dispatcher writes exactly the synthetic 503 to the client, opens no
backend connection, and performs no health update (no `record_success` or
`record_failure` call, and the registry is unchanged). -/
theorem no_backend_503_c5 (T C : Nat) (env : Env) (st : ProxyState)
    (raw : String) (hr : env.clientRead = some raw)
    (hsel : (get_next_backend st.reg st.cursor env.now).1 = none) :
    (handle_client T C env st).1.clientWrites = [resp503] ∧
    (handle_client T C env st).1.connAttempts = 0 ∧
    (handle_client T C env st).1.healthEvents = [] ∧
    (handle_client T C env st).2.reg = st.reg := by
  simp [handle_client, hr, afterRead, hsel]

theorem no_backend_503_c5_w :
    (handle_client 2 5 envHappy stAllCooling).1.clientWrites = [resp503] ∧
    (handle_client 2 5 envHappy stAllCooling).1.connAttempts = 0 ∧
    (handle_client 2 5 envHappy stAllCooling).1.healthEvents = [] ∧
    (handle_client 2 5 envHappy stAllCooling).2.reg = stAllCooling.reg :=
  no_backend_503_c5 2 5 envHappy stAllCooling "GET / HTTP/1.1\r\n\r\n"
    rfl (by decide)

/-- C8, as stated, is false on the code: on the no-backend exit path, the
`writer.close()` follows the un-guarded drain of the synthetic 503, so
when that client-side drain fails the handler propagates the exception
without ever closing the client connection (0 closes, not exactly 1). -/
theorem client_close_every_path_c8_cex :
    (handle_client 2 5 envNoBackendDrainFail stAllCooling).1.closes = 0 ∧
    (handle_client 2 5 envNoBackendDrainFail stAllCooling).1.raised = true := by
  refine ⟨?_, ?_⟩ <;> decide

/-- C8 (amended): the client connection is closed exactly once on the
client-read-timeout path, on every path where a backend was selected
(success or any backend failure, via the `finally` block), and on the
no-backend path provided the client-side write of the synthetic 503
succeeds; when that 503 write fails, the handler raises without closing
the connection (0 closes). -/
theorem client_close_every_path_c8 (T C : Nat) (env : Env) (st : ProxyState) :
    (handle_client T C env st).1.closes =
      if env.clientRead.isSome = true ∧
          (get_next_backend st.reg st.cursor env.now).1 = none ∧
          env.drain503Ok = false then 0 else 1 := by
  cases hr : env.clientRead with
  | none => simp [handle_client, hr]
  | some raw =>
    cases hsel : (get_next_backend st.reg st.cursor env.now).1 with
    | none =>
      cases hd : env.drain503Ok <;>
        simp [handle_client, hr, afterRead, hsel, hd]
    | some i =>
      simp [handle_client, hr, afterRead, hsel, forwardPhase_closes]

/-- C10: when the client read yields an empty payload (the client closed
its connection, or sent nothing, before the client-read timeout fired),
the dispatcher does not treat it as a timeout: it selects a backend,
opens a connection and forwards the empty payload to it, rather than
closing the client connection without a response. -/
theorem empty_read_forwards_c10 (T C : Nat) (env : Env) (st : ProxyState)
    (i : Nat) (hr : env.clientRead = some "")
    (hsel : (get_next_backend st.reg st.cursor env.now).1 = some i)
    (hc : env.connectOk = true) (hf : env.forwardOk = true) :
    (handle_client T C env st).1.connAttempts = 1 ∧
    (handle_client T C env st).1.backendWrites = [""] ∧
    (handle_client T C env st).1.closes = 1 := by
  have hred : handle_client T C env st
      = forwardPhase T C env st "" i (get_next_backend st.reg st.cursor env.now).2 := by
    simp [handle_client, hr, afterRead, hsel]
  rw [hred]
  cases hb : env.backendRead with
  | none => simp [forwardPhase, hc, hf, hb, failResult]
  | some resp =>
    by_cases hd : env.respDrainOk <;>
      simp [forwardPhase, hc, hf, hb, hd, failResult]

theorem empty_read_forwards_c10_w :
    (handle_client 2 5 envEmptyRead st0).1.connAttempts = 1 ∧
    (handle_client 2 5 envEmptyRead st0).1.backendWrites = [""] ∧
    (handle_client 2 5 envEmptyRead st0).1.closes = 1 :=
  empty_read_forwards_c10 2 5 envEmptyRead st0 0 rfl (by decide) rfl rfl

end FlowGate
